import Mathlib

/-!
Formal model of the `virtualenvpruner` discovery-and-sizing core
(`src/venvs.rs`, `src/main.rs`), as a shallow embedding in Lean.

Filesystem state is made explicit: each Rust function that reads the
filesystem becomes a Lean function over a value describing exactly what
those reads would return.  Machine integers (`u64` sizes) are modelled
as `Nat`; the source does not handle overflow ("treated as practically
unreachable at filesystem-size scales"), and no claim exercises it.
Strings are modelled as character lists (`Str`), with the handful of
`str` operations the source uses (`starts_with`, `trim`, slicing,
`find`, `split_whitespace`, `trim_start_matches`) defined below by
structural recursion so that every definition evaluates inside the
kernel. -/

/-- Character-list model of Rust `String` / `str`. -/
abbrev Str := List Char

/-- Component-list model of a filesystem path. -/
abbrev FsPath := List Str

/-- Model of `s.starts_with(pat)`: `startsWithL s pat` is true when
`pat` is an initial segment of `s`. -/
def startsWithL : Str → Str → Bool
  | _, [] => true
  | [], _ :: _ => false
  | c :: s, p :: ps => c == p && startsWithL s ps

/-- Model of `s.trim()`: removes whitespace from both ends. -/
def trimL (s : Str) : Str :=
  ((s.dropWhile Char.isWhitespace).reverse.dropWhile Char.isWhitespace).reverse

/-- Model of `s.find(pat)` followed by slicing off everything up to the
end of the first match: `afterFirst pat s` is `some` of the suffix of
`s` that follows the first occurrence of `pat`, or `none` when there is
no occurrence. -/
def afterFirst (pat : Str) : Str → Option Str
  | [] => if startsWithL [] pat then some [] else none
  | c :: rest =>
    if startsWithL (c :: rest) pat then some ((c :: rest).drop pat.length)
    else afterFirst pat rest

/-- Model of `s.contains(pat)`. -/
def containsL (s pat : Str) : Bool := (afterFirst pat s).isSome

/-- Model of `s.split_whitespace().next()`: the first maximal run of
non-whitespace characters, or `none` when the string is all
whitespace. -/
def firstToken (s : Str) : Option Str :=
  let s₂ := s.dropWhile Char.isWhitespace
  if s₂ = [] then none else some (s₂.takeWhile (fun c => !c.isWhitespace))

/-- Fuel-indexed helper for `stripLeadingPython`; the fuel argument only
makes the recursion structural and is chosen large enough in the
wrapper that it is never exhausted (each strip removes six characters,
so at most `s.length` strips can happen). -/
def stripPythonAux : Nat → Str → Str
  | 0, s => s
  | k + 1, s =>
    if startsWithL s "python".toList then stripPythonAux k (s.drop "python".toList.length)
    else s

/-- Model of `name.trim_start_matches("python")` from strategy 2 of
`get_python_version` (`src/venvs.rs` line 236): repeatedly removes a
leading `"python"` while one is present. -/
def stripLeadingPython (s : Str) : Str := stripPythonAux s.length s

/-- Shape of one filesystem entry as seen by `get_dir_size` in
`src/venvs.rs` (lines 123-175).  Each constructor records the outcome of
the syscalls the Rust code performs on that entry:
`file len`: `symlink_metadata` succeeds, not a symlink, not a directory,
`metadata.len() = len`;
`dir len children`: metadata succeeds, a directory of length `len`, and
`read_dir` succeeds yielding `children` in iteration order;
`dirUnreadable len`: metadata succeeds, a directory of length `len`, but
`read_dir` fails;
`symlink target`: `metadata.file_type().is_symlink()` is true; `target`
records what the link points to (`none` for a broken link) and is never
inspected, because the code returns before looking at it;
`metaErr`: `symlink_metadata` itself fails;
`entryErr`: the `read_dir` iterator produced `Err` for this entry. -/
inductive FsEntry where
  | file (len : Nat)
  | dir (len : Nat) (children : List FsEntry)
  | dirUnreadable (len : Nat)
  | symlink (target : Option FsEntry)
  | metaErr
  | entryErr

mutual
/-- Embedding of `get_dir_size` (`src/venvs.rs` lines 123-175).
Metadata failure returns 0; a symlink returns 0 before any recursion; a
file returns its length; a directory returns its own `metadata.len()`
plus the recursively computed sizes of its children, and if `read_dir`
fails it returns just its own length; an `Err` entry in the `read_dir`
iterator contributes 0.  The Rust parallel `par_bridge().map(..).sum()`
is a commutative fold, modelled as the sequential sum `sizeChildren`. -/
def get_dir_size : FsEntry → Nat
  | .metaErr => 0
  | .symlink _ => 0
  | .file len => len
  | .entryErr => 0
  | .dirUnreadable len => len
  | .dir len children => len + sizeChildren children
/-- Sum of `get_dir_size` over a directory's children (the parallel
reduction in `get_dir_size`, written as a structural fold). -/
def sizeChildren : List FsEntry → Nat
  | [] => 0
  | c :: cs => get_dir_size c + sizeChildren cs
end

mutual
/-- Sum of the byte lengths of the regular files in a tree (the quantity
the spec calls "the sum of regular-file byte lengths"). -/
def sumFiles : FsEntry → Nat
  | .file len => len
  | .dir _ cs => sumFilesChildren cs
  | _ => 0
/-- Sum of `sumFiles` over a list of entries. -/
def sumFilesChildren : List FsEntry → Nat
  | [] => 0
  | c :: cs => sumFiles c + sumFilesChildren cs
end

mutual
/-- Sum of the reported metadata lengths of the directories in a tree
(each directory's own `metadata.len()`, the root included). -/
def sumDirMeta : FsEntry → Nat
  | .dir len cs => len + sumDirMetaChildren cs
  | _ => 0
/-- Sum of `sumDirMeta` over a list of entries. -/
def sumDirMetaChildren : List FsEntry → Nat
  | [] => 0
  | c :: cs => sumDirMeta c + sumDirMetaChildren cs
end

mutual
/-- True when the tree consists only of regular files and readable
directories reachable via non-symlink edges: no symlinks, no error
outcomes anywhere. -/
def pureTree : FsEntry → Bool
  | .file _ => true
  | .dir _ cs => pureChildren cs
  | _ => false
/-- `pureTree` on every entry of a list. -/
def pureChildren : List FsEntry → Bool
  | [] => true
  | c :: cs => pureTree c && pureChildren cs
end

mutual
/-- Depth of the tree counted along non-symlink directory edges only: a
symlink is a leaf (depth 0) no matter what it points to, mirroring the
fact that `get_dir_size` never traverses one. -/
def depth : FsEntry → Nat
  | .dir _ cs => 1 + depthChildren cs
  | _ => 0
/-- Maximum of `depth` over a list of entries. -/
def depthChildren : List FsEntry → Nat
  | [] => 0
  | c :: cs => max (depth c) (depthChildren cs)
end

mutual
/-- Step-indexed version of `get_dir_size`: `fuel` bounds the number of
nested recursive descents into directories, and the function returns
`none` if the bound is hit.  All leaf cases, symlinks included, answer
without consuming fuel, which is exactly why the real recursion never
follows a symlink cycle. -/
def sizeFuel : Nat → FsEntry → Option Nat
  | _, .metaErr => some 0
  | _, .symlink _ => some 0
  | _, .file len => some len
  | _, .entryErr => some 0
  | _, .dirUnreadable len => some len
  | fuel, .dir len children =>
    match fuel with
    | 0 => none
    | f + 1 => (sizeFuelChildren f children).map (fun s => len + s)
/-- Step-indexed sum of `sizeFuel` over a directory's children. -/
def sizeFuelChildren : Nat → List FsEntry → Option Nat
  | _, [] => some 0
  | f, c :: cs =>
    match sizeFuel f c, sizeFuelChildren f cs with
    | some a, some b => some (a + b)
    | _, _ => none
end

mutual
/-- Induction principle for `FsEntry` that hands the directory case the
induction hypothesis for every member of the child list. -/
def FsEntry.ind {P : FsEntry → Prop}
    (hfile : ∀ n, P (.file n))
    (hdir : ∀ n cs, (∀ c ∈ cs, P c) → P (.dir n cs))
    (hdu : ∀ n, P (.dirUnreadable n))
    (hsym : ∀ t, P (.symlink t))
    (hme : P .metaErr)
    (hee : P .entryErr) : ∀ t, P t
  | .file n => hfile n
  | .dir n cs => hdir n cs (FsEntry.indList hfile hdir hdu hsym hme hee cs)
  | .dirUnreadable n => hdu n
  | .symlink t => hsym t
  | .metaErr => hme
  | .entryErr => hee
/-- List form of `FsEntry.ind`. -/
def FsEntry.indList {P : FsEntry → Prop}
    (hfile : ∀ n, P (.file n))
    (hdir : ∀ n cs, (∀ c ∈ cs, P c) → P (.dir n cs))
    (hdu : ∀ n, P (.dirUnreadable n))
    (hsym : ∀ t, P (.symlink t))
    (hme : P .metaErr)
    (hee : P .entryErr) : ∀ cs : List FsEntry, ∀ c ∈ cs, P c
  | [], _, h => absurd h (List.not_mem_nil _)
  | c :: cs, d, h => by
    rcases List.mem_cons.mp h with h1 | h2
    · exact h1 ▸ FsEntry.ind hfile hdir hdu hsym hme hee c
    · exact FsEntry.indList hfile hdir hdu hsym hme hee cs d h2
end

/-- What the filesystem reads performed by `get_python_version` and
`build_virtualenv` (`src/venvs.rs` lines 177-288) return for one
candidate environment root.  For each of the three files/directories the
resolver may consult, `none` means the `exists()` test fails;
`some none` means it exists but opening/reading it fails (the
`File::open(..)` / `read_dir(..)` call returns `Err`); `some (some xs)`
means it exists and reading succeeds with contents `xs`.
`pyvenvCfg`: the successfully read lines of `pyvenv.cfg` (the Rust code
drops unreadable lines via `filter_map(Result::ok)`).
`libEntries`: the entry names of `lib/` that decode as UTF-8, in
iteration order.
`condaHistory`: the successfully read lines of `conda-meta/history`.
`pythonExists`: result of `exists()` on `<root>/bin/python` (used both
by the builder's signature check and by strategy 4).
`pythonOutput`: `none` when spawning `bin/python --version` fails,
otherwise the captured `(stdout, stderr)` decoded lossily.
`tree`: the sizing view of the root handed to `get_dir_size`. -/
structure RootView where
  pyvenvCfg : Option (Option (List Str))
  libEntries : Option (Option (List Str))
  condaHistory : Option (Option (List Str))
  pythonExists : Bool
  pythonOutput : Option (Str × Str)
  tree : FsEntry

/-- Strategy 4 of `get_python_version` (`src/venvs.rs` lines 266-284):
if `bin/python` exists, run it with `--version`; a spawn failure is a
hard error; otherwise take trimmed stdout if non-empty else trimmed
stderr, and if the text starts with `"Python "` return the rest. -/
def versionMethod4 (v : RootView) : Except Str (Option Str) :=
  if v.pythonExists then
    match v.pythonOutput with
    | none => .error "Failed to execute python --version".toList
    | some (out, err) =>
      let so := trimL out
      let vo := if so = [] then trimL err else so
      if startsWithL vo "Python ".toList then .ok (some (vo.drop "Python ".toList.length))
      else .ok none
  else .ok none

/-- Strategy 3 of `get_python_version` (`src/venvs.rs` lines 244-264):
if `conda-meta/history` exists, a failed open is a hard error; otherwise
on the first line containing `"python-"`, the text after the first
occurrence of `"python-"` up to the next whitespace is returned
(defaulting to `"Unknown"` when nothing follows the marker); finding no
such line falls through to strategy 4. -/
def versionMethod3 (v : RootView) : Except Str (Option Str) :=
  match v.condaHistory with
  | some none => .error "Failed to open conda-meta history".toList
  | some (some lines) =>
    match lines.find? (fun l => containsL l "python-".toList) with
    | some line =>
      match afterFirst "python-".toList line with
      | some info => .ok (some ((firstToken info).getD "Unknown".toList))
      | none => versionMethod4 v
    | none => versionMethod4 v
  | none => versionMethod4 v

/-- Strategy 2 of `get_python_version` (`src/venvs.rs` lines 227-242):
if `lib/` exists, a failed `read_dir` is a hard error; otherwise the
first entry name starting with `"python"` is stripped of all leading
`"python"` occurrences, and a non-empty remainder is returned; an empty
remainder or no match falls through to strategy 3. -/
def versionMethod2 (v : RootView) : Except Str (Option Str) :=
  match v.libEntries with
  | some none => .error "Failed to read lib".toList
  | some (some names) =>
    match names.find? (fun n => startsWithL n "python".toList) with
    | some nm =>
      let ver := stripLeadingPython nm
      if ver = [] then versionMethod3 v else .ok (some ver)
    | none => versionMethod3 v
  | none => versionMethod3 v

/-- Embedding of `get_python_version` (`src/venvs.rs` lines 211-288),
entered at strategy 1: if `pyvenv.cfg` exists, a failed open is a hard
error; otherwise the first line starting with `"version = "` yields the
rest of that line trimmed; finding nothing falls through to strategy
2. -/
def get_python_version (v : RootView) : Except Str (Option Str) :=
  match v.pyvenvCfg with
  | some none => .error "Failed to open pyvenv cfg".toList
  | some (some lines) =>
    match lines.find? (fun l => startsWithL l "version = ".toList) with
    | some line => .ok (some (trimL (line.drop "version = ".toList.length)))
    | none => versionMethod2 v
  | none => versionMethod2 v

/-- Stand-in for the external `human_bytes` crate used for
`venv_size_str` (`src/venvs.rs` line 199).  The crate does
floating-point presentation formatting, which the spec places outside
the core; no claim inspects this string, only that it is computed from
the size. -/
def human_bytes (n : Nat) : Str := (toString n).toList

/-- Embedding of the `VirtualEnv` record (`src/venvs.rs` lines 17-25). -/
structure VirtualEnv where
  path : FsPath
  name : Str
  python_path : FsPath
  python_version : Str
  venv_size : Nat
  venv_size_str : Str
deriving DecidableEq

/-- Embedding of `build_virtualenv` (`src/venvs.rs` lines 177-209) for
the candidate root `path`, where `view` says what the filesystem returns
for each root.  Mirrors the source order: reject if `bin/python` does
not exist; propagate a version-resolver error; reject if the name (the
final path component) cannot be produced; size the tree; assemble the
record, defaulting the version to `"Unknown"`. -/
def build_virtualenv (view : FsPath → RootView) (path : FsPath) :
    Except Str VirtualEnv :=
  if (view path).pythonExists then
    match get_python_version (view path) with
    | .error e => .error e
    | .ok vOpt =>
      match path.getLast? with
      | some nm =>
        let sz := get_dir_size (view path).tree
        .ok ⟨path, nm, path ++ ["bin".toList, "python".toList],
             vOpt.getD "Unknown".toList, sz, human_bytes sz⟩
      | none => .error "Failed to parse virtual environment name".toList
  else .error "Python executable not found".toList

/-- Embedding of `build_virtualenvs` (`src/venvs.rs` lines 290-302):
build every candidate, keep the successes, drop (and merely report) the
failures.  The Rust `into_par_iter().filter_map(..)` preserves input
order in its collected result; the commutative collection is modelled as
the sequential `filterMap`. -/
def build_virtualenvs (view : FsPath → RootView) (paths : List FsPath) :
    List VirtualEnv :=
  paths.filterMap (fun p => (build_virtualenv view p).toOption)

/-- Named directory-tree node as traversed by `WalkDir` in
`get_venv_paths` (`src/venvs.rs` lines 91-117).  `link` is a symlink
entry: with `follow_links(false)` it is yielded but never descended
into. -/
inductive DirTree where
  | file (nm : Str)
  | dir (nm : Str) (children : List DirTree)
  | link (nm : Str)

/-- Name of a `DirTree` node. -/
def DirTree.name : DirTree → Str
  | .file nm => nm
  | .dir nm _ => nm
  | .link nm => nm

/-- The per-entry test and extraction of `get_venv_paths`
(`src/venvs.rs` lines 99-113): an entry whose file name is `"python"`
and whose parent directory is named `"bin"` yields the grandparent path
as a candidate environment root. -/
def hitAt (p : FsPath) : List FsPath :=
  if p.getLast? = some "python".toList ∧ p.dropLast.getLast? = some "bin".toList
  then [p.dropLast.dropLast] else []

mutual
/-- Embedding of the `WalkDir::new(root).follow_links(false)
.max_depth(4)` traversal (`src/venvs.rs` lines 94-114): yields every
entry down to the given remaining depth, applying `hitAt` to each full
path; symlinks and files are leaves; a directory's children are visited
only while fuel remains.  `pp` is the path of the parent of the current
node. -/
def walkEntries : Nat → FsPath → DirTree → List FsPath
  | _, pp, .file nm => hitAt (pp ++ [nm])
  | _, pp, .link nm => hitAt (pp ++ [nm])
  | fuel, pp, .dir nm children =>
    hitAt (pp ++ [nm]) ++
      match fuel with
      | 0 => []
      | f + 1 => walkList f (pp ++ [nm]) children
/-- `walkEntries` over a list of sibling subtrees. -/
def walkList : Nat → FsPath → List DirTree → List FsPath
  | _, _, [] => []
  | f, p, c :: cs => walkEntries f p c ++ walkList f p cs
end

/-- Subtree of a directory tree at a component path, resolving each
component against the children's names; `none` when the path does not
exist in the tree. -/
def subtreeAt : DirTree → FsPath → Option DirTree
  | t, [] => some t
  | .dir _ cs, n :: rest =>
    match cs.find? (fun c => DirTree.name c == n) with
    | some c => subtreeAt c rest
    | none => none
  | _, _ :: _ => none

/-- First-occurrence deduplication with an explicit seen list: the model
of filtering with `HashSet::insert` (`src/venvs.rs` lines 85-89), which
keeps an element only the first time it appears. -/
def dedupAux {α : Type} [DecidableEq α] (seen : List α) : List α → List α
  | [] => []
  | c :: rest => if c ∈ seen then dedupAux seen rest else c :: dedupAux (c :: seen) rest

/-- Deduplication of the canonicalized search paths, keeping first
occurrences in order (`src/venvs.rs` lines 84-89). -/
def dedupKeepFirst {α : Type} [DecidableEq α] (l : List α) : List α := dedupAux [] l

/-- Filesystem state consumed by `get_venv_paths`: `canon` is what
`std::fs::canonicalize` returns for a search-path template (`none` when
resolution fails, e.g. the path does not exist), as a component list of
the real path; `root` is the directory tree those canonical paths are
resolved against. -/
structure SearchFs where
  canon : Str → Option FsPath
  root : DirTree

/-- The hardcoded search-path template list of `get_venv_paths`
(`src/venvs.rs` lines 43-77), with `home` standing for the resolved home
directory. -/
def search_paths (home : Str) : List Str :=
  [ home ++ "/.local/pipx/venvs".toList,
    home ++ "/.virtualenvs".toList,
    home ++ "/.local/share/virtualenvs".toList,
    "/usr/local/share/virtualenvs".toList,
    "/usr/share/virtualenvs".toList,
    "/opt/virtualenvs".toList,
    home ++ "/.config/virtualenvs".toList,
    home ++ "/.cache/pypoetry/virtualenvs".toList,
    home ++ "/.conda/envs".toList,
    home ++ "/.miniconda/envs".toList,
    home ++ "/.miniforge/envs".toList,
    home ++ "/anaconda3/envs".toList,
    home ++ "/miniconda3/envs".toList,
    home ++ "/miniforge3/envs".toList,
    home ++ "/mambaforge/envs".toList,
    home ++ "/mambaforge3/envs".toList,
    home ++ "/.pyenv/versions/envs".toList,
    home ++ "/.asdf/installs/python".toList,
    home ++ "/.asdf/installs/python/versions".toList,
    home ++ "/Library/Enthought/Canopy/edm/envs".toList,
    home ++ "/.PyCharmXXXX.X/config/virtualenvs".toList,
    "/opt/anaconda3/envs".toList,
    "/opt/miniconda3/envs".toList ]

/-- Embedding of `get_venv_paths` (`src/venvs.rs` lines 40-121) after
home-directory resolution: canonicalize each template dropping failures,
deduplicate the canonical paths by first occurrence, then run the
bounded `WalkDir` traversal from each unique root and concatenate the
per-root candidate lists.  The Rust parallel `into_par_iter().map(..)
.flatten().collect()` preserves the order of the outer list, modelled
sequentially.  No deduplication is applied to the result (the trailing
`// deduplicate the paths` comment in the source has no code after
it). -/
def get_venv_paths (fs : SearchFs) (templates : List Str) : List FsPath :=
  let canonical := templates.filterMap fs.canon
  let uniquePaths := dedupKeepFirst canonical
  (uniquePaths.map (fun r =>
    match subtreeAt fs.root r with
    | some t => walkEntries 4 r.dropLast t
    | none => [])).flatten

/-- Embedding of `get_venvs` (`src/venvs.rs` lines 304-308): discover
candidate roots, then build the records.  No sorting happens here. -/
def get_venvs (fs : SearchFs) (view : FsPath → RootView) (templates : List Str) :
    List VirtualEnv :=
  build_virtualenvs view (get_venv_paths fs templates)

/-- The comparison `main.rs` sorts by (line 105):
`venvs.sort_by(|a, b| b.venv_size.cmp(&a.venv_size))`, i.e. `a` comes
no later than `b` when `b.venv_size ≤ a.venv_size`. -/
def venvGE (a b : VirtualEnv) : Prop := b.venv_size ≤ a.venv_size

instance : DecidableRel venvGE := fun a b => Nat.decLe b.venv_size a.venv_size

instance : IsTotal VirtualEnv venvGE := ⟨fun a b => Nat.le_total b.venv_size a.venv_size⟩

instance : IsTrans VirtualEnv venvGE := ⟨fun _ _ _ hab hbc => Nat.le_trans hbc hab⟩

/-- The sort the presentation layer applies to the scan result
(`src/main.rs` line 105).  Rust's `sort_by` is a stable sort under the
given comparator; any two stable sorts agree, so it is modelled by the
stable `List.insertionSort` under `venvGE`. -/
def sort_by_size_desc (vs : List VirtualEnv) : List VirtualEnv := vs.insertionSort venvGE

/-- The condition under which strategy 1 of `get_python_version` finds
nothing and falls through: `pyvenv.cfg` is absent, or it opens but
contains no line starting with `"version = "`. -/
def cfgFindsNothing (v : RootView) : Prop :=
  v.pyvenvCfg = none ∨
    ∃ ls, v.pyvenvCfg = some (some ls) ∧
      ls.find? (fun l => startsWithL l "version = ".toList) = none

/-- The condition under which strategy 2 of `get_python_version` finds
nothing and falls through: `lib/` is absent, or it lists but no entry
name starts with `"python"`, or the first such name strips to the empty
string. -/
def libFindsNothing (v : RootView) : Prop :=
  v.libEntries = none ∨
    ∃ ns, v.libEntries = some (some ns) ∧
      (ns.find? (fun n => startsWithL n "python".toList) = none ∨
       ∃ nm, ns.find? (fun n => startsWithL n "python".toList) = some nm ∧
         stripLeadingPython nm = [])

/-- Directory tree with two environments under one search root: `r/a`
and `r/b`, each carrying the `bin/python` signature. -/
def exTree2 : DirTree :=
  .dir "".toList
    [.dir "r".toList
      [.dir "a".toList [.dir "bin".toList [.file "python".toList]],
       .dir "b".toList [.dir "bin".toList [.file "python".toList]]]]

/-- Search state in which the single template `~/r` canonicalizes to the
root `r` of `exTree2`. -/
def exFs2 : SearchFs := ⟨fun t => if t = "~/r".toList then some ["r".toList] else none, exTree2⟩

/-- Per-root filesystem view for `exTree2`: every candidate has
`bin/python`, no version source succeeds, and the environment at `r/a`
holds 5 bytes of files while every other one holds 10. -/
def exView2 : FsPath → RootView := fun p =>
  ⟨none, none, none, true, some ([], []),
   .dir 0 [.file (if p = ["r".toList, "a".toList] then 5 else 10)]⟩

/-- Directory tree with one environment `R/sub/env` that lies inside
both the search root `R` and the nested search root `R/sub`. -/
def exTree3 : DirTree :=
  .dir "".toList
    [.dir "R".toList
      [.dir "sub".toList
        [.dir "env".toList [.dir "bin".toList [.file "python".toList]]]]]

/-- Search state for `exTree3`: templates `tA` and `tB` alias the same
canonical root `R`, while `tC` canonicalizes to the nested root
`R/sub`. -/
def exFs3 : SearchFs :=
  ⟨fun t => if t = "tA".toList ∨ t = "tB".toList then some ["R".toList]
            else if t = "tC".toList then some ["R".toList, "sub".toList] else none, exTree3⟩

/-- Root view whose `pyvenv.cfg` holds `version = 3.11.4` while every
other strategy would report a different version (`lib/python3.99`, a
conda history line with `python-2.7.1`, and a subprocess printing
`Python 1.2.3`). -/
def cfgView : RootView :=
  ⟨some (some ["home = /usr".toList, "version = 3.11.4".toList]),
   some (some ["python3.99".toList]),
   some (some ["+python-2.7.1 rest".toList]),
   true, some ("Python 1.2.3".toList, []), .file 0⟩

/-- Root view on which all four version strategies find nothing:
no `pyvenv.cfg`, no `lib/`, no conda history, and a `bin/python` that
runs but prints nothing recognizable. -/
def allFailView : RootView := ⟨none, none, none, true, some ([], []), .dir 0 []⟩

/-- Root view whose `pyvenv.cfg` resolves a version while its
`conda-meta/history` exists but cannot be opened. -/
def condaBadView : RootView :=
  ⟨some (some ["version = 3.0".toList]), none, some none, true, none, .file 7⟩

/-- Candidate view in which `bin/python` does not exist at any root. -/
def noPyView : FsPath → RootView := fun _ => ⟨none, none, none, false, none, .file 0⟩

/-- Candidate view in which `pyvenv.cfg` exists but cannot be opened at
any root. -/
def cfgUnopenView : FsPath → RootView := fun _ => ⟨some none, none, none, true, none, .file 0⟩

theorem sizeChildren_append (l r : List FsEntry) :
    sizeChildren (l ++ r) = sizeChildren l + sizeChildren r := by
  induction l with
  | nil => simp [sizeChildren]
  | cons c cs ih => simp [sizeChildren, ih]; omega

theorem sizeChildren_eq_sum (cs : List FsEntry) :
    sizeChildren cs = (cs.map get_dir_size).sum := by
  induction cs with
  | nil => rfl
  | cons c cs ih => simp [sizeChildren, ih]

theorem pure_children_decomp (cs : List FsEntry)
    (ih : ∀ c ∈ cs, pureTree c = true → get_dir_size c = sumFiles c + sumDirMeta c)
    (hp : pureChildren cs = true) :
    sizeChildren cs = sumFilesChildren cs + sumDirMetaChildren cs := by
  induction cs with
  | nil => rfl
  | cons c cs ihl =>
    simp only [pureChildren, Bool.and_eq_true] at hp
    have h1 := ih c (List.mem_cons_self c cs) hp.1
    have h2 := ihl (fun d hd hdp => ih d (List.mem_cons_of_mem c hd) hdp) hp.2
    simp only [sizeChildren, sumFilesChildren, sumDirMetaChildren]
    omega

theorem size_pure_decomp :
    ∀ t, pureTree t = true → get_dir_size t = sumFiles t + sumDirMeta t := by
  refine FsEntry.ind ?_ ?_ ?_ ?_ ?_ ?_
  · intro n _; simp [get_dir_size, sumFiles, sumDirMeta]
  · intro n cs ih hp
    simp only [pureTree] at hp
    have := pure_children_decomp cs ih hp
    simp only [get_dir_size, sumFiles, sumDirMeta]
    omega
  · intro n h; simp [pureTree] at h
  · intro t h; simp [pureTree] at h
  · intro h; simp [pureTree] at h
  · intro h; simp [pureTree] at h

theorem size_dir_perm (len : Nat) (l l₂ : List FsEntry) (h : l.Perm l₂) :
    get_dir_size (.dir len l) = get_dir_size (.dir len l₂) := by
  simp only [get_dir_size, sizeChildren_eq_sum]
  rw [(h.map get_dir_size).sum_eq]

theorem depth_le_depthChildren {c : FsEntry} :
    ∀ {cs : List FsEntry}, c ∈ cs → depth c ≤ depthChildren cs := by
  intro cs h
  induction cs with
  | nil => cases h
  | cons d ds ih =>
    rcases List.mem_cons.mp h with h1 | h2
    · simp only [depthChildren, h1]
      exact Nat.le_max_left _ _
    · simp only [depthChildren]
      exact Nat.le_trans (ih h2) (Nat.le_max_right _ _)

theorem sizeFuelChildren_complete {f : Nat} :
    ∀ {cs : List FsEntry}, (∀ c ∈ cs, sizeFuel f c = some (get_dir_size c)) →
      sizeFuelChildren f cs = some (sizeChildren cs) := by
  intro cs h
  induction cs with
  | nil => rfl
  | cons c cs ih =>
    have h1 := h c (List.mem_cons_self c cs)
    have h2 := ih (fun d hd => h d (List.mem_cons_of_mem c hd))
    simp [sizeFuelChildren, h1, h2, sizeChildren]

theorem sizeFuel_complete :
    ∀ t, ∀ n : Nat, depth t < n → sizeFuel n t = some (get_dir_size t) := by
  refine FsEntry.ind ?_ ?_ ?_ ?_ ?_ ?_
  · intro len n _; rfl
  · intro len cs ih n hn
    cases n with
    | zero => exact absurd hn (Nat.not_lt_zero _)
    | succ f =>
      have hd : depthChildren cs < f := by
        simp only [depth] at hn
        omega
      have hc : ∀ c ∈ cs, sizeFuel f c = some (get_dir_size c) := fun c hcm =>
        ih c hcm f (Nat.lt_of_le_of_lt (depth_le_depthChildren hcm) hd)
      have := sizeFuelChildren_complete hc
      simp [sizeFuel, this, get_dir_size]
  · intro len n _; rfl
  · intro t n _; rfl
  · intro n _; rfl
  · intro n _; rfl

theorem build_virtualenv_path_eq {view : FsPath → RootView} {p : FsPath} {v : VirtualEnv}
    (h : build_virtualenv view p = .ok v) : v.path = p := by
  simp only [build_virtualenv] at h
  split at h
  · split at h
    · exact absurd h (by simp)
    · split at h
      · injection h with h2
        rw [← h2]
      · exact absurd h (by simp)
  · exact absurd h (by simp)

theorem mem_build_virtualenvs {view : FsPath → RootView} {paths : List FsPath} {v : VirtualEnv}
    (h : v ∈ build_virtualenvs view paths) :
    ∃ p ∈ paths, build_virtualenv view p = .ok v := by
  simp only [build_virtualenvs, List.mem_filterMap] at h
  obtain ⟨p, hp, hsome⟩ := h
  refine ⟨p, hp, ?_⟩
  cases hb : build_virtualenv view p with
  | error e => rw [hb] at hsome; simp [Except.toOption] at hsome
  | ok w =>
    rw [hb] at hsome
    simp [Except.toOption] at hsome
    rw [hsome]

theorem build_virtualenvs_cons_error {view : FsPath → RootView} {p : FsPath}
    {rest : List FsPath} {e : Str} (h : build_virtualenv view p = .error e) :
    build_virtualenvs view (p :: rest) = build_virtualenvs view rest := by
  simp [build_virtualenvs, h, Except.toOption]

theorem gpv_eq_m2 {v : RootView} (h : cfgFindsNothing v) :
    get_python_version v = versionMethod2 v := by
  rcases h with h1 | ⟨ls, h2, h3⟩
  · simp only [get_python_version, h1]
  · simp only [get_python_version, h2, h3]

theorem m2_eq_m3 {v : RootView} (h : libFindsNothing v) :
    versionMethod2 v = versionMethod3 v := by
  rcases h with h1 | ⟨ns, h2, h3⟩
  · simp only [versionMethod2, h1]
  · rcases h3 with h3 | ⟨nm, h4, h5⟩
    · simp only [versionMethod2, h2, h3]
    · simp only [versionMethod2, h2, h4, h5, if_pos]

/-- C1: the claim as stated is false on the code.  The tree
`dir 4096 [file 10]` contains only regular files and directories
reachable via non-symlink edges, the sum of its regular-file byte
lengths is 10, yet `get_dir_size` computes 4106, because the code adds
each directory's own `metadata.len()` (line 140 of `src/venvs.rs`) on
top of the recursive sum. -/
theorem C1_counterexample :
    pureTree (FsEntry.dir 4096 [FsEntry.file 10]) = true ∧
    sumFiles (FsEntry.dir 4096 [FsEntry.file 10]) = 10 ∧
    get_dir_size (FsEntry.dir 4096 [FsEntry.file 10]) = 4106 ∧
    get_dir_size (FsEntry.dir 4096 [FsEntry.file 10]) ≠
      sumFiles (FsEntry.dir 4096 [FsEntry.file 10]) := by
  refine ⟨by decide, by decide, by decide, by decide⟩

/-- C1 (amended): for every environment tree containing only regular
files and directories reachable via non-symlink edges, the computed size
equals the sum of the regular-file byte lengths plus the reported
metadata lengths of the directories (the root included); and the result
is independent of the order in which a directory's children are
processed, so traversal/parallelism order cannot change it. -/
theorem C1_size_decomposition :
    (∀ t, pureTree t = true → get_dir_size t = sumFiles t + sumDirMeta t) ∧
    (∀ len (l l₂ : List FsEntry), l.Perm l₂ →
      get_dir_size (.dir len l) = get_dir_size (.dir len l₂)) :=
  ⟨size_pure_decomp, size_dir_perm⟩

/-- C1 witness: the amended statement evaluated on concrete trees. -/
theorem C1_size_decomposition_witness :
    get_dir_size (FsEntry.dir 4096 [FsEntry.file 10, FsEntry.file 5]) =
      sumFiles (FsEntry.dir 4096 [FsEntry.file 10, FsEntry.file 5]) +
        sumDirMeta (FsEntry.dir 4096 [FsEntry.file 10, FsEntry.file 5]) ∧
    get_dir_size (FsEntry.dir 0 [FsEntry.file 1, FsEntry.file 2]) =
      get_dir_size (FsEntry.dir 0 [FsEntry.file 2, FsEntry.file 1]) :=
  ⟨C1_size_decomposition.1 _ (by decide),
   C1_size_decomposition.2 0 _ _ (List.Perm.swap _ _ _)⟩

/-- C2: the claim as stated is false on the code.  `get_venvs` itself
performs no sorting: on the concrete search state `exFs2`, where the
smaller environment `r/a` (5 bytes) is discovered before the larger
`r/b` (10 bytes), `get_venvs` returns the sizes in order `[5, 10]`,
and `5 ≥ 10` fails, so the returned sequence is not non-increasing. -/
theorem C2_counterexample :
    (get_venvs exFs2 exView2 ["~/r".toList]).map (fun v => v.venv_size) = [5, 10] ∧
    ¬ (5 : Nat) ≥ 10 := by
  refine ⟨by decide, by decide⟩

/-- C2 (amended): `get_venvs` returns the records in discovery order,
unsorted; it is the presentation layer (`main`, `src/main.rs` line 105)
that sorts the returned collection by `venv_size` descending, and after
that sort every element's size is greater than or equal to the next
element's. -/
theorem C2_sorted_after_presentation_sort (fs : SearchFs) (view : FsPath → RootView)
    (ts : List Str) :
    List.Sorted venvGE (sort_by_size_desc (get_venvs fs view ts)) :=
  List.sorted_insertionSort venvGE _

/-- C3: evidence that discovered environment paths are not deduplicated.
Templates `tA` and `tB` alias the same canonical root `R` (that pair is
merged), template `tC` canonicalizes to the nested root `R/sub`, and the
single true environment `R/sub/env` appears twice in the final result.
The hardcoded template list really does contain such a nested pair:
`~/.asdf/installs/python` and `~/.asdf/installs/python/versions`. -/
theorem C3_duplicate_discovery :
    exFs3.canon "tA".toList = exFs3.canon "tB".toList ∧
    (get_venv_paths exFs3 ["tA".toList, "tB".toList, "tC".toList]).count
      ["R".toList, "sub".toList, "env".toList] = 2 ∧
    ("/h".toList ++ "/.asdf/installs/python".toList) ∈ search_paths "/h".toList ∧
    ("/h".toList ++ "/.asdf/installs/python/versions".toList) ∈ search_paths "/h".toList := by
  refine ⟨by decide, by decide, by decide, by decide⟩

/-- C4: a candidate whose `bin/python` does not exist is rejected by
`build_virtualenv` with an error, no record with that path ever appears
in any batch result, and dropping the candidate leaves the rest of the
batch unchanged (the batch is not aborted). -/
theorem C4_missing_interpreter_rejected (view : FsPath → RootView) (p : FsPath)
    (h : (view p).pythonExists = false) :
    build_virtualenv view p = .error "Python executable not found".toList ∧
    (∀ paths v, v ∈ build_virtualenvs view paths → v.path ≠ p) ∧
    (∀ rest, build_virtualenvs view (p :: rest) = build_virtualenvs view rest) := by
  have hb : build_virtualenv view p = .error "Python executable not found".toList := by
    simp only [build_virtualenv, h, Bool.false_eq_true, if_false]
  refine ⟨hb, ?_, fun rest => build_virtualenvs_cons_error hb⟩
  intro paths v hv hpath
  obtain ⟨q, hq, hok⟩ := mem_build_virtualenvs hv
  have hqp : q = p := by rw [← build_virtualenv_path_eq hok, hpath]
  rw [hqp, hb] at hok
  exact absurd hok (by simp)

/-- C4 witness: the theorem applied to a concrete candidate with no
interpreter binary. -/
theorem C4_witness :
    build_virtualenvs noPyView [["x".toList]] = build_virtualenvs noPyView [] :=
  (C4_missing_interpreter_rejected noPyView ["x".toList] rfl).2.2 []

/-- C5: a symlink entry contributes exactly zero to the computed size,
whatever it points to (`tgt` ranges over broken links and links to
arbitrarily large trees alike), both on its own and as a member of any
directory's child list. -/
theorem C5_symlink_contributes_zero :
    (∀ tgt, get_dir_size (FsEntry.symlink tgt) = 0) ∧
    (∀ len (pre post : List FsEntry) tgt,
      get_dir_size (FsEntry.dir len (pre ++ FsEntry.symlink tgt :: post)) =
        get_dir_size (FsEntry.dir len (pre ++ post))) := by
  refine ⟨fun tgt => rfl, fun len pre post tgt => ?_⟩
  simp only [get_dir_size, sizeChildren_append, sizeChildren]
  omega

/-- C6: when `pyvenv.cfg` opens and contains a line starting with
`"version = "`, `get_python_version` returns the remainder of the first
such line trimmed, whatever the `lib` directory, conda history, and
subprocess strategies would have reported (the other fields of `v` are
unconstrained). -/
theorem C6_pyvenv_cfg_precedence (v : RootView) (lines : List Str) (line : Str)
    (hcfg : v.pyvenvCfg = some (some lines))
    (hfind : lines.find? (fun l => startsWithL l "version = ".toList) = some line) :
    get_python_version v = .ok (some (trimL (line.drop "version = ".toList.length))) := by
  simp only [get_python_version, hcfg, hfind]

/-- C6 witness: on a root whose `pyvenv.cfg` says `version = 3.11.4`
while `lib/`, conda history and the interpreter all disagree, the
resolver answers `3.11.4`. -/
theorem C6_witness : get_python_version cfgView = .ok (some "3.11.4".toList) :=
  C6_pyvenv_cfg_precedence cfgView
    ["home = /usr".toList, "version = 3.11.4".toList] "version = 3.11.4".toList rfl rfl

/-- C7: the claim as stated is false on the code in one detail: the
sentinel is the capitalized string `"Unknown"` (`src/venvs.rs` line
190), not `"unknown"`.  On a root where all four strategies find
nothing, the build succeeds and the record carries `"Unknown"`. -/
theorem C7_counterexample :
    build_virtualenv (fun _ => allFailView) ["envs".toList, "foo".toList] =
      .ok ⟨["envs".toList, "foo".toList], "foo".toList,
           ["envs".toList, "foo".toList, "bin".toList, "python".toList],
           "Unknown".toList, 0, human_bytes 0⟩ ∧
    "Unknown".toList ≠ "unknown".toList :=
  ⟨rfl, by decide⟩

/-- C7 (amended): whenever the version resolver completes without error
but finds nothing (`.ok none`), and the candidate has its interpreter
and a readable name, the build still succeeds and the record's version
is the sentinel `"Unknown"`. -/
theorem C7_unknown_sentinel (view : FsPath → RootView) (p : FsPath) (nm : Str)
    (hpy : (view p).pythonExists = true)
    (hv : get_python_version (view p) = .ok none)
    (hnm : p.getLast? = some nm) :
    build_virtualenv view p =
      .ok ⟨p, nm, p ++ ["bin".toList, "python".toList], "Unknown".toList,
           get_dir_size (view p).tree, human_bytes (get_dir_size (view p).tree)⟩ := by
  simp only [build_virtualenv, hpy, if_true, hv, hnm, Option.getD_none]

/-- C7 witness: the amended statement on a concrete root where every
strategy finds nothing. -/
theorem C7_witness :
    build_virtualenv (fun _ => allFailView) ["e".toList] =
      .ok ⟨["e".toList], "e".toList, ["e".toList] ++ ["bin".toList, "python".toList],
           "Unknown".toList, get_dir_size allFailView.tree,
           human_bytes (get_dir_size allFailView.tree)⟩ :=
  C7_unknown_sentinel (fun _ => allFailView) ["e".toList] "e".toList rfl rfl rfl

/-- C8: the claim as stated is false on the code in one detail: when a
directory's `read_dir` fails, that entry does not contribute zero — its
own `metadata.len()` is still added (`src/venvs.rs` line 148 returns
`size`, not 0).  Concretely an unreadable directory of length 4096
contributes 4096. -/
theorem C8_counterexample :
    get_dir_size (FsEntry.dir 0 [FsEntry.dirUnreadable 4096]) = 4096 ∧
    (4096 : Nat) ≠ 0 := by
  refine ⟨by decide, by decide⟩

/-- C8 (amended): the size computation is total and non-negative, and
per-entry errors are absorbed: a failed `symlink_metadata` and a failed
`read_dir` iterator entry contribute exactly zero, while a directory
whose listing fails contributes its own metadata length with its
children treated as zero; in every case the aggregate completes. -/
theorem C8_error_absorption :
    (∀ t, 0 ≤ get_dir_size t) ∧
    get_dir_size FsEntry.metaErr = 0 ∧
    get_dir_size FsEntry.entryErr = 0 ∧
    (∀ len, get_dir_size (FsEntry.dirUnreadable len) = len) ∧
    (∀ len cs, get_dir_size (FsEntry.dir len (FsEntry.metaErr :: cs)) =
      get_dir_size (FsEntry.dir len cs)) ∧
    (∀ len cs, get_dir_size (FsEntry.dir len (FsEntry.entryErr :: cs)) =
      get_dir_size (FsEntry.dir len cs)) := by
  refine ⟨fun t => Nat.zero_le _, rfl, rfl, fun len => rfl, fun len cs => ?_, fun len cs => ?_⟩
  · simp [get_dir_size, sizeChildren]
  · simp [get_dir_size, sizeChildren]

/-- C9: the recursion of the size computation is well-founded because
symlinks are never traversed: a symlink is answered with zero using no
recursion depth at all (even with zero fuel, whatever it points to), and
fuel exceeding the tree's depth along non-symlink directory edges — a
finite number for any real directory tree, since those edges cannot
cycle — makes the step-indexed computation complete with the same value
as `get_dir_size`. -/
theorem C9_termination :
    (∀ tgt (n : Nat), sizeFuel n (FsEntry.symlink tgt) = some 0) ∧
    (∀ t (n : Nat), depth t < n → sizeFuel n t = some (get_dir_size t)) :=
  ⟨fun _ _ => rfl, sizeFuel_complete⟩

/-- C9 witness: the bounded computation evaluated on a concrete tree. -/
theorem C9_witness :
    sizeFuel 2 (FsEntry.dir 4096 [FsEntry.file 10]) =
      some (get_dir_size (FsEntry.dir 4096 [FsEntry.file 10])) :=
  C9_termination.2 _ 2 (by decide)

/-- C10: the claim as stated is false on the code for the parenthetical
`conda-meta/history` case: when `pyvenv.cfg` resolves a version, an
unopenable `conda-meta/history` is never reached, the resolver succeeds,
and the candidate is included in the result set rather than excluded. -/
theorem C10_counterexample :
    condaBadView.condaHistory = some none ∧
    get_python_version condaBadView = .ok (some "3.0".toList) ∧
    build_virtualenvs (fun _ => condaBadView) [["e".toList]] =
      [⟨["e".toList], "e".toList, ["e".toList, "bin".toList, "python".toList],
        "3.0".toList, 7, human_bytes 7⟩] :=
  ⟨rfl, rfl, rfl⟩

/-- C10 (amended): when `pyvenv.cfg` exists but cannot be opened — or
when resolution reaches strategy 3 because strategies 1 and 2 find
nothing and `conda-meta/history` exists but cannot be opened — the
version resolver returns an error, `build_virtualenv` returns an error,
no record with that candidate's path appears in the batch result, and
the batch continues with the remaining candidates. -/
theorem C10_open_failure_excludes (view : FsPath → RootView) (p : FsPath)
    (rest : List FsPath)
    (h : (view p).pyvenvCfg = some none ∨
         (cfgFindsNothing (view p) ∧ libFindsNothing (view p) ∧
          (view p).condaHistory = some none)) :
    (∃ e, get_python_version (view p) = .error e) ∧
    (∃ e, build_virtualenv view p = .error e) ∧
    (∀ v, v ∈ build_virtualenvs view (p :: rest) → v.path ≠ p) ∧
    build_virtualenvs view (p :: rest) = build_virtualenvs view rest := by
  have hgv : ∃ e, get_python_version (view p) = .error e := by
    rcases h with h1 | ⟨hc, hl, hconda⟩
    · exact ⟨"Failed to open pyvenv cfg".toList, by simp only [get_python_version, h1]⟩
    · refine ⟨"Failed to open conda-meta history".toList, ?_⟩
      rw [gpv_eq_m2 hc, m2_eq_m3 hl]
      simp only [versionMethod3, hconda]
  obtain ⟨e, he⟩ := hgv
  have hb : ∃ e₂, build_virtualenv view p = .error e₂ := by
    cases hp : (view p).pythonExists
    · exact ⟨"Python executable not found".toList,
        by simp only [build_virtualenv, hp, Bool.false_eq_true, if_false]⟩
    · exact ⟨e, by simp only [build_virtualenv, hp, if_true, he]⟩
  obtain ⟨e₂, hb2⟩ := hb
  refine ⟨⟨e, he⟩, ⟨e₂, hb2⟩, ?_, build_virtualenvs_cons_error hb2⟩
  intro v hv hpath
  obtain ⟨q, hq, hok⟩ := mem_build_virtualenvs hv
  have hqp : q = p := by rw [← build_virtualenv_path_eq hok, hpath]
  rw [hqp, hb2] at hok
  exact absurd hok (by simp)

/-- C10 witness: a concrete candidate whose `pyvenv.cfg` exists but
cannot be opened is excluded while the batch goes on. -/
theorem C10_witness :
    build_virtualenvs cfgUnopenView [["e".toList]] = build_virtualenvs cfgUnopenView [] :=
  (C10_open_failure_excludes cfgUnopenView ["e".toList] [] (Or.inl rfl)).2.2.2
